import Mathlib

/-!
Verification model of the PocketBase instance manager (pb_manager).

The definitions below are a shallow embedding of the Python sources:
  - src/core/instance_service.py  (InstanceService: sanitize_name,
    get_next_available_port, create_instance, update_version,
    delete_instance, get_instances_with_status, regenerate_run_script)
  - src/core/pm2_service.py       (PM2Service: get_all_status, is_running)
  - src/routes/api.py             (toggle_dev_mode route)
  - src/models/instance.py        (Instance row)
  - src/config.py                 (DEFAULT_PORT_START, INSTANCES_DIR)

Modelling conventions:
  - The registry (SQLAlchemy/SQLite) is a list of rows; a commit is the
    point where the registry field of the state changes, and a rollback
    of an uncommitted transaction is the identity on the registry.
  - The filesystem is a list of directory paths plus an association list
    of file paths to contents (file contents are abstract strings).
  - External effects that can fail (artifact download, file copy, chmod,
    file unlink, stdout writes, database commit, the pm2 subprocess) are
    driven by explicit environment records injected into each operation.
  - Python's regex \w and str.lower are Unicode-aware. They are modelled
    over ASCII plus the Latin-1 letters (the code points exercised in
    this development); the modelled fragment keeps non-ASCII word
    characters exactly as the interpreter does, which is where the
    sanitizer diverges from the specification's [A-Za-z0-9_-] class.
-/

namespace PBMan

/-! ## Naming: InstanceService.sanitize_name (instance_service.py 22-30) -/

/-- The Latin-1 letters (À–Ö, Ø–ö, ø–ÿ), all matched by Python's
Unicode-aware `\w`. Python additionally treats ª, µ, º and the
alphanumeric code points above U+00FF as word characters; none of those
occur in any string this development reasons about. -/
def pyLatin1Word (c : Char) : Bool :=
  decide ((192 ≤ c.toNat ∧ c.toNat ≤ 246 ∧ c.toNat ≠ 215) ∨
    (248 ≤ c.toNat ∧ c.toNat ≤ 255))

/-- Python `\w` (str mode): ASCII letters, digits and underscore, plus
Unicode word characters (modelled by `pyLatin1Word`). -/
def pyWordChar (c : Char) : Bool := c.isAlphanum || c = '_' || pyLatin1Word c

/-- Python `str.lower`, modelled over ASCII and Latin-1: the uppercase
letters A–Z and À–Þ (except ×) shift down by 32; everything else is
unchanged (as in Python, ß and the lowercase letters are fixed). -/
def pyToLower (c : Char) : Char :=
  if (65 ≤ c.toNat ∧ c.toNat ≤ 90) ∨
      (192 ≤ c.toNat ∧ c.toNat ≤ 222 ∧ c.toNat ≠ 215) then
    Char.ofNat (c.toNat + 32)
  else c

/-- A character kept (not replaced) by `re.sub(r'[^\w\-]', '_', name)`. -/
def keepChar (c : Char) : Bool := pyWordChar c || c = '-'

/-- `re.sub(r'[^\w\-]', '_', name)`: every non-word, non-hyphen character
becomes a single underscore. -/
def replaceSpecial (l : List Char) : List Char :=
  l.map (fun c => if keepChar c then c else '_')

/-- `re.sub(r'_+', '_', name)`: each maximal run of underscores collapses
to a single underscore, i.e. adjacent duplicate underscores are dropped. -/
def collapseUnderscores : List Char → List Char
  | [] => []
  | [c] => [c]
  | c :: c' :: rest =>
    if c = '_' && c' = '_' then collapseUnderscores (c' :: rest)
    else c :: collapseUnderscores (c' :: rest)

/-- Python `str.strip('_')`: drop leading and trailing underscores. -/
def stripUnderscores (l : List Char) : List Char :=
  ((l.dropWhile (fun c => c == '_')).reverse.dropWhile (fun c => c == '_')).reverse

/-- `sanitize_name` over character lists: replace, collapse, then
`.lower().strip('_')` (lowercase before stripping, as in the source). -/
def sanitizeList (l : List Char) : List Char :=
  stripUnderscores ((collapseUnderscores (replaceSpecial l)).map pyToLower)

/-- `InstanceService.sanitize_name`. -/
def sanitizeName (s : String) : String :=
  ⟨sanitizeList s.data⟩

/-- The character class `[A-Za-z0-9_-]` named by the specification. -/
def specKeep (c : Char) : Bool :=
  ('A' ≤ c && c ≤ 'Z') || ('a' ≤ c && c ≤ 'z') || ('0' ≤ c && c ≤ '9') ||
    c = '_' || c = '-'

/-- Sanitization following the specification text word for word: replace
every character outside `[A-Za-z0-9_-]` with `_`, collapse repeated `_`,
trim leading/trailing `_`, lowercase (in that order). -/
def sanitizeSpec (s : String) : String :=
  ⟨(stripUnderscores (collapseUnderscores
      (s.data.map (fun c => if specKeep c then c else '_')))).map pyToLower⟩

/-! ## Paths, registry rows, and the world state -/

/-- `Config.INSTANCES_DIR` (config.py 25): an absolute directory that is
created (and therefore exists) at application start-up. -/
def instancesDir : String := "/home/user/pocketbase-instances"

/-- `Config.DEFAULT_PORT_START` (config.py 37), default value. -/
def defaultPortStart : Nat := 7200

/-- `DownloadService.get_executable_name()` on a non-Windows host. -/
def exeName : String := "pocketbase"

/-- `pathlib`'s `/` operator: joining an empty segment is the identity
(`Path('/a') / '' == Path('/a')`). -/
def joinPath (base child : String) : String :=
  if child = "" then base else base ++ "/" ++ child

/-- Whether path `d` lies inside the directory `p` (or is `p` itself),
the set of paths removed by `shutil.rmtree(p)`. -/
def underPath (p d : String) : Bool := d == p || (p ++ "/").data.isPrefixOf d.data

/-- Abstract contents of the executable artifact for a given version,
as produced by `DownloadService.download_version`. -/
def exeBlob (version : String) : String := "POCKETBASE-" ++ version

/-- A row of the `instances` table (models/instance.py 5-17). -/
structure Row where
  id : Nat
  name : String
  version : String
  port : Nat
  pm2_name : String
  pb_path : String
  dev_mode : Bool
  domain : Option String
deriving Repr, DecidableEq

/-- World state: the registry table plus the filesystem (directories and
files with contents). -/
structure St where
  registry : List Row
  dirs : List String
  files : List (String × String)
deriving Repr, DecidableEq

/-- State at application start-up: empty registry, the instances
directory already created by `Config`, no instance files. -/
def initSt : St := ⟨[], [instancesDir], []⟩

/-- `mkdir(exist_ok=True)`: add a directory unless already present. -/
def addDir (dirs : List String) (d : String) : List String :=
  if d ∈ dirs then dirs else dirs ++ [d]

/-- Sequence of `mkdir` calls. -/
def addDirs (dirs : List String) : List String → List String
  | [] => dirs
  | d :: rest => addDirs (addDir dirs d) rest

/-- Write a file (create or overwrite). -/
def fput (files : List (String × String)) (p v : String) : List (String × String) :=
  (p, v) :: files.filter (fun f => !(f.1 == p))

/-- Read a file's contents, `none` when absent (`Path.exists` is
`(flookup files p).isSome`). -/
def flookup (files : List (String × String)) (p : String) : Option String :=
  (files.find? (fun f => f.1 == p)).map (·.2)

/-- `Path.unlink`: remove a file. -/
def fdel (files : List (String × String)) (p : String) : List (String × String) :=
  files.filter (fun f => !(f.1 == p))

/-- Directories surviving `shutil.rmtree p`. -/
def rmtreeDirs (dirs : List String) (p : String) : List String :=
  dirs.filter (fun d => !(underPath p d))

/-- Files surviving `shutil.rmtree p`. -/
def rmtreeFiles (files : List (String × String)) (p : String) : List (String × String) :=
  files.filter (fun f => !(underPath p f.1))

/-! ## Port allocation: get_next_available_port (instance_service.py 32-40) -/

/-- Port of the first row of `Instance.query.order_by(Instance.port.desc())`,
i.e. the largest registered port (0 when the registry is empty, unused
in that case). -/
def maxPort (reg : List Row) : Nat := reg.foldr (fun r m => max r.port m) 0

/-- `InstanceService.get_next_available_port`. -/
def getNextAvailablePort (reg : List Row) : Nat :=
  if reg.isEmpty then defaultPortStart
  else max (maxPort reg + 1) defaultPortStart

/-! ## Supervisor client: PM2Service (pm2_service.py) -/

/-- One element of the JSON array printed by `pm2 jlist`, restricted to
the keys the service reads; an `Option` field is `none` when the key is
absent from the JSON object (`dict.get` then returns its default). -/
structure RawProc where
  name : Option String
  status : Option String
  pid : Option Int
  cpu : Option Int
  memory : Option Int
  uptime : Option Int
  restarts : Option Int
deriving Repr, DecidableEq

/-- Value stored per process by `PM2Service.get_all_status`
(pm2_service.py 105-112). -/
structure ProcInfo where
  status : String
  pid : Option Int
  cpu : Int
  memory : Int
  uptime : Int
  restarts : Int
deriving Repr, DecidableEq

/-- Outcome of running `pm2 jlist` and parsing its stdout: `.error ()`
covers a non-zero exit code, a timeout of the subprocess, or stdout that
fails to parse as JSON; `.ok procs` is the parsed process array. -/
abbrev SupReport := Except Unit (List RawProc)

/-- Python dict insertion on an association list (last write wins on
lookup, so we prepend after dropping the old binding). -/
def dinsert (m : List (Option String × ProcInfo)) (k : Option String) (v : ProcInfo) :
    List (Option String × ProcInfo) :=
  (k, v) :: m.filter (fun e => !(e.1 == k))

/-- Dict lookup. -/
def dget (m : List (Option String × ProcInfo)) (k : Option String) : Option ProcInfo :=
  (m.find? (fun e => e.1 == k)).map (·.2)

/-- `PM2Service.get_all_status` (pm2_service.py 84-117): on any failure
of the `pm2 jlist` subprocess, or on unparseable output, the status map
is empty; otherwise one entry per reported process, keyed by its name. -/
def getAllStatus (sup : SupReport) : List (Option String × ProcInfo) :=
  match sup with
  | .error _ => []
  | .ok procs =>
    procs.foldl (fun m p =>
      dinsert m p.name
        { status := p.status.getD "unknown"
          pid := p.pid
          cpu := p.cpu.getD 0
          memory := p.memory.getD 0
          uptime := p.uptime.getD 0
          restarts := p.restarts.getD 0 }) []

/-- `PM2Service.get_instance_status` (pm2_service.py 119-122). -/
def getInstanceStatus (sup : SupReport) (pm2Name : String) : Option ProcInfo :=
  dget (getAllStatus sup) (some pm2Name)

/-- `PM2Service.is_running` (pm2_service.py 147-152). -/
def isRunning (sup : SupReport) (pm2Name : String) : Bool :=
  match getInstanceStatus sup pm2Name with
  | some st => st.status == "online"
  | none => false

/-! ## Errors raised by InstanceService

The source raises plain `Exception`s; each constructor below stands for
one distinct `raise` site (identified by its message), plus
`invalidName` for the `InvalidNameError` that the specification names
but the code never raises (kept so the specification's statement about
it can be expressed and refuted). -/

inductive CStep
  | mkdirs
  | writeScript
  | chmodScript
  | copyExe
  | chmodExe
  | commit
deriving Repr, DecidableEq

inductive Err
  | duplicateName (n : String)
  | portInUse (p : Nat)
  | downloadFailed
  | dirExists (d : String)
  | createFailed (s : CStep)
  | notFound (id : Nat)
  | mustBeStopped
  | updateFailed
  | invalidName
deriving Repr, DecidableEq

/-- Whether an error is the validation error the specification says an
empty sanitized name produces. -/
def Err.isInvalidName : Err → Bool
  | .invalidName => true
  | _ => false

/-! ## Launch script (instance_service.py 320-344 and 433-457)

`create_instance` and `regenerate_run_script` write the very same
template, filled from the instance's name, version, port, dev-mode flag
and directory. -/

/-- `dev_flag = '--dev' if dev_mode else ''`. -/
def devFlag (dev : Bool) : String := if dev then "--dev" else ""

/-- Python's rendering of a bool in an f-string. -/
def pyBool (b : Bool) : String := if b then "True" else "False"

/-- The `run.sh` template of the source, rendered. -/
def renderRunScript (name version : String) (port : Nat) (dev : Bool) (dir : String) : String :=
  "#!/bin/bash\n" ++
  "set -e  # Exit on any error\n\n" ++
  "# PocketBase Instance Runner\n" ++
  "# Instance: " ++ name ++ "\n" ++
  "# Version: " ++ version ++ "\n" ++
  "# Port: " ++ toString port ++ "\n" ++
  "# Dev Mode: " ++ pyBool dev ++ "\n\n" ++
  "cd \"" ++ dir ++ "\"\n\n" ++
  "# Check if pocketbase executable exists\n" ++
  "if [ ! -f \"./pocketbase\" ]; then\n" ++
  "    echo \"Error: pocketbase executable not found in $(pwd)\"\n" ++
  "    exit 1\n" ++
  "fi\n\n" ++
  "exec \"./pocketbase\" serve \\\n" ++
  "    --http \"0.0.0.0:" ++ toString port ++ "\" \\\n" ++
  "    --dir \"" ++ dir ++ "/pb_data\" \\\n" ++
  "    --hooksDir \"" ++ dir ++ "/pb_hooks\" \\\n" ++
  "    --migrationsDir \"" ++ dir ++ "/pb_migrations\" \\\n" ++
  "    --publicDir \"" ++ dir ++ "/pb_public\" \\\n" ++
  "    " ++ devFlag dev ++ "\n"

/-! ## Lifecycle Manager: create_instance (instance_service.py 268-396) -/

/-- Environment of one `create_instance` call: whether the artifact
download succeeds, which step inside the `try` block (if any) raises,
whether the host is Unix (`detect_os() in ['linux','darwin']`), and
whether superuser provisioning succeeds when attempted. -/
structure CEnv where
  downloadOk : Bool
  failAt : Option CStep
  osUnix : Bool
  superuserOk : Bool
deriving Repr, DecidableEq

/-- SQLAlchemy's autoincrement primary key for the next inserted row. -/
def nextId (reg : List Row) : Nat := reg.foldr (fun r m => max r.id m) 0 + 1

/-- The body of the `try` block of `create_instance` (lines 308-389):
directory tree, launch script, executable copy, registry insert. Stops
at the step named by `env.failAt`, returning the state reached so far.
Superuser provisioning failure is explicitly swallowed by the source
(lines 382-387), so it cannot make the body fail. -/
def createTryBody (st : St) (env : CEnv) (sname version : String) (port : Nat)
    (dev : Bool) (domain : Option String) (idir : String) : Except CStep Row × St :=
  if env.failAt = some CStep.mkdirs then (.error .mkdirs, st)
  else
    let st1 : St := { st with
      dirs := addDirs st.dirs
        [idir, joinPath idir "pb_hooks", joinPath idir "pb_migrations",
         joinPath idir "pb_data", joinPath idir "pb_public"] }
    if env.failAt = some CStep.writeScript then (.error .writeScript, st1)
    else
      let st2 : St := { st1 with
        files := fput st1.files (joinPath idir "run.sh")
          (renderRunScript sname version port dev idir) }
      if env.failAt = some CStep.chmodScript then (.error .chmodScript, st2)
      else if env.failAt = some CStep.copyExe then (.error .copyExe, st2)
      else
        let st3 : St := { st2 with
          files := fput st2.files (joinPath idir exeName) (exeBlob version) }
        if env.osUnix && env.failAt = some CStep.chmodExe then (.error .chmodExe, st3)
        else if env.failAt = some CStep.commit then (.error .commit, st3)
        else
          let row : Row :=
            { id := nextId st.registry, name := sname, version := version,
              port := port, pm2_name := "pb_" ++ sname, pb_path := idir,
              dev_mode := dev, domain := domain }
          (.ok row, { st3 with registry := st3.registry ++ [row] })

/-- Steps of `create_instance` from the download on (lines 297-396),
with the port already resolved. The `except` block (lines 391-396)
removes the instance directory tree if it exists and rolls back the
registry transaction (the registry only changes at a successful commit,
so the rollback leaves it as it was). -/
def createWithPort (st : St) (env : CEnv) (sname version : String) (port : Nat)
    (dev : Bool) (domain : Option String) : Except Err Row × St :=
  if !env.downloadOk then (.error .downloadFailed, st)
  else
    if joinPath instancesDir sname ∈ st.dirs then
      (.error (.dirExists (joinPath instancesDir sname)), st)
    else
      match createTryBody st env sname version port dev domain
          (joinPath instancesDir sname) with
      | (.ok row, st') => (.ok row, st')
      | (.error s, stf) =>
        if joinPath instancesDir sname ∈ stf.dirs then
          (.error (.createFailed s),
            { stf with
                dirs := rmtreeDirs stf.dirs (joinPath instancesDir sname),
                files := rmtreeFiles stf.files (joinPath instancesDir sname) })
        else (.error (.createFailed s), stf)

/-- `InstanceService.create_instance` (lines 268-396): sanitize, check
name uniqueness, resolve the port (caller-supplied and checked, or
allocated), then the fallible tail. `filter_by(...).first()` is
non-`None` exactly when some row matches. -/
def createInstance (st : St) (env : CEnv) (name version : String)
    (port? : Option Nat) (dev : Bool) (domain : Option String) : Except Err Row × St :=
  if st.registry.any (fun r => r.name == sanitizeName name) then
    (.error (.duplicateName (sanitizeName name)), st)
  else
    match port? with
    | none =>
      createWithPort st env (sanitizeName name) version
        (getNextAvailablePort st.registry) dev domain
    | some p =>
      if st.registry.any (fun r => r.port == p) then (.error (.portInUse p), st)
      else createWithPort st env (sanitizeName name) version p dev domain

/-- Arguments plus environment of one `create_instance` call. -/
structure CreateCall where
  env : CEnv
  name : String
  version : String
  port? : Option Nat
  dev : Bool
  domain : Option String
deriving Repr

/-- Run a sequence of `create_instance` calls, keeping the state each
call leaves behind whether it succeeds or fails. -/
def runCreates (st : St) : List CreateCall → St
  | [] => st
  | c :: rest => runCreates (createInstance st c.env c.name c.version c.port? c.dev c.domain).2 rest

/-- Registry invariant claimed by the specification: pairwise distinct
names, ports and supervisor process names, each process name being
`"pb_" + name` with `name` a sanitized name. -/
def RegInv (reg : List Row) : Prop :=
  reg.Pairwise (fun a b => a.name ≠ b.name ∧ a.port ≠ b.port ∧ a.pm2_name ≠ b.pm2_name)
  ∧ ∀ r ∈ reg, r.pm2_name = "pb_" ++ r.name ∧ ∃ raw, r.name = sanitizeName raw

/-! ## Lifecycle Manager: update_version (instance_service.py 183-240) -/

/-- Environment of one `update_version` call: the supervisor report
consulted by `is_running`, and which of the fallible steps inside the
`try` block fail. The `try` block extends past the commit: the
backup-unlink (lines 228-229) and the success `print` (line 231) can
also raise, reaching the `except` handler after the commit persisted. -/
structure UEnv where
  sup : SupReport
  downloadOk : Bool
  copyFails : Bool
  chmodFails : Bool
  commitFails : Bool
  osUnix : Bool
  unlinkFails : Bool
  printFails : Bool
deriving Repr

/-- The `except` block of `update_version` (lines 234-240): if both the
backup and the instance executable exist, copy the backup back over the
instance executable and delete the backup; then roll back the registry
transaction (identity here: the registry only changes at a successful
commit). -/
def updateExcept (st : St) (instExe backupExe : String) : Except Err Unit × St :=
  let st' : St :=
    match flookup st.files backupExe, flookup st.files instExe with
    | some b, some _ =>
      { st with files := fdel (fput st.files instExe b) backupExe }
    | _, _ => st
  (.error .updateFailed, st')

/-- `InstanceService.update_version` (lines 183-240). -/
def updateVersion (st : St) (env : UEnv) (instanceId : Nat) (newVersion : String) :
    Except Err Unit × St :=
  match st.registry.find? (fun r => r.id == instanceId) with
  | none => (.error (.notFound instanceId), st)
  | some inst =>
    if isRunning env.sup inst.pm2_name then (.error .mustBeStopped, st)
    else
      let instExe := joinPath inst.pb_path exeName
      let backupExe := joinPath inst.pb_path (exeName ++ ".backup")
      if !env.downloadOk then updateExcept st instExe backupExe
      else
        let st1 : St :=
          match flookup st.files instExe with
          | some bytes => { st with files := fput st.files backupExe bytes }
          | none => st
        if env.copyFails then updateExcept st1 instExe backupExe
        else
          let st2 : St := { st1 with files := fput st1.files instExe (exeBlob newVersion) }
          if env.osUnix && env.chmodFails then updateExcept st2 instExe backupExe
          else if env.commitFails then updateExcept st2 instExe backupExe
          else
            -- the commit persisted: the remaining steps of the `try`
            -- block (backup unlink, success print) raise into the same
            -- handler, whose rollback can no longer undo the commit
            let st3 : St := { st2 with
              registry := st2.registry.map (fun r =>
                if r.id == instanceId then { r with version := newVersion } else r) }
            if (flookup st3.files backupExe).isSome then
              if env.unlinkFails then updateExcept st3 instExe backupExe
              else
                let st4 : St := { st3 with files := fdel st3.files backupExe }
                if env.printFails then updateExcept st4 instExe backupExe
                else (.ok (), st4)
            else
              if env.printFails then updateExcept st3 instExe backupExe
              else (.ok (), st3)

/-! ## Lifecycle Manager: delete_instance (instance_service.py 465-503) -/

/-- Observable effects of `delete_instance`, in the order the source
performs them. -/
inductive DEvent
  | supStop (n : String)
  | supDelete (n : String)
  | fsRemove (d : String)
  | rowDelete (id : Nat)
deriving Repr, DecidableEq

/-- `InstanceService.delete_instance` (lines 465-503). `pm2 stop` and
`pm2 delete` report failure through their return value, which the
source ignores, so they never abort the operation. -/
def deleteInstance (st : St) (sup : SupReport) (instanceId : Nat) (removeFiles : Bool) :
    Except Err Unit × St × List DEvent :=
  match st.registry.find? (fun r => r.id == instanceId) with
  | none => (.error (.notFound instanceId), st, [])
  | some inst =>
    let ev1 : List DEvent :=
      if isRunning sup inst.pm2_name then [.supStop inst.pm2_name] else []
    let ev2 := ev1 ++ [DEvent.supDelete inst.pm2_name]
    let stEv :=
      if removeFiles then
        if inst.pb_path ∈ st.dirs then
          (({ st with dirs := rmtreeDirs st.dirs inst.pb_path,
                      files := rmtreeFiles st.files inst.pb_path } : St),
           ev2 ++ [DEvent.fsRemove inst.pb_path])
        else (st, ev2)
      else (st, ev2)
    let st2 : St := { stEv.1 with
      registry := stEv.1.registry.filter (fun r => !(r.id == instanceId)) }
    (.ok (), st2, stEv.2 ++ [DEvent.rowDelete instanceId])

/-! ## Mode toggle: toggle_dev_mode route (routes/api.py 181-214) -/

/-- Supervisor calls issued by the toggle route. -/
inductive TEvent
  | restart (n : String)
deriving Repr, DecidableEq

/-- The `/instances/<id>/dev` POST handler: flip `dev_mode`, persist it
(`update_dev_mode`, instance_service.py 414-422), regenerate `run.sh`
from the updated row (`regenerate_run_script`, lines 424-463; the
SQLAlchemy identity map makes the handler's `instance` object reflect
the persisted flip), then restart only if the process is reported
running. -/
def toggleDevMode (st : St) (sup : SupReport) (instanceId : Nat) :
    Except Err Bool × St × List TEvent :=
  match st.registry.find? (fun r => r.id == instanceId) with
  | none => (.error (.notFound instanceId), st, [])
  | some inst =>
    let newDev := !inst.dev_mode
    let st1 : St := { st with
      registry := st.registry.map (fun r =>
        if r.id == instanceId then { r with dev_mode := newDev } else r) }
    let st2 : St := { st1 with
      files := fput st1.files (joinPath inst.pb_path "run.sh")
        (renderRunScript inst.name inst.version inst.port newDev inst.pb_path) }
    let evs : List TEvent :=
      if isRunning sup inst.pm2_name then [.restart inst.pm2_name] else []
    (.ok newDev, st2, evs)

/-! ## Status aggregation: get_instances_with_status (instance_service.py 505-520) -/

/-- The dictionary built per instance by `get_instances_with_status`:
the registry row's fields plus the supervisor-derived runtime fields.
A runtime field holds `none` where Python holds `None` and `some n`
where Python holds the integer `n`. -/
structure StatusRow where
  row : Row
  pm2_status : String
  pid : Option Int
  cpu : Option Int
  memory : Option Int
deriving Repr, DecidableEq

/-- The loop body of `get_instances_with_status` (lines 511-518):
`pm2_statuses.get(instance.pm2_name, {})`, then `.get` with defaults. -/
def joinRow (statuses : List (Option String × ProcInfo)) (r : Row) : StatusRow :=
  match dget statuses (some r.pm2_name) with
  | some info => { row := r, pm2_status := info.status, pid := info.pid,
                   cpu := some info.cpu, memory := some info.memory }
  | none => { row := r, pm2_status := "stopped", pid := none,
              cpu := some 0, memory := some 0 }

/-- `InstanceService.get_instances_with_status`: one bulk
`get_all_status` call, then a pure join over the registry rows. The
second component counts the supervisor subprocess invocations the
operation performs. -/
def getInstancesWithStatus (rows : List Row) (sup : SupReport) :
    List StatusRow × Nat :=
  (rows.map (joinRow (getAllStatus sup)), 1)

/-! ## Concrete sample data for witnesses and counterexamples -/

/-- Whether a `create_instance` outcome is a failure with the
specification's validation error. -/
def resultIsInvalidName (res : Except Err Row × St) : Bool :=
  match res.1 with
  | .error e => e.isInvalidName
  | .ok _ => false

/-- A sample registered instance at port 7200. -/
def sampleRowA : Row :=
  { id := 1, name := "alpha", version := "0.22.0", port := 7200,
    pm2_name := "pb_alpha", pb_path := joinPath instancesDir "alpha",
    dev_mode := false, domain := none }

/-- A sample registered instance at port 7203. -/
def sampleRowB : Row :=
  { id := 2, name := "beta", version := "0.22.0", port := 7203,
    pm2_name := "pb_beta", pb_path := joinPath instancesDir "beta",
    dev_mode := false, domain := none }

/-- A state in which `sampleRowA` and `sampleRowB` exist with their
directories, launch scripts and executables on disk. -/
def sampleSt : St :=
  { registry := [sampleRowA, sampleRowB]
    dirs := [instancesDir, sampleRowA.pb_path, sampleRowB.pb_path]
    files :=
      [(joinPath sampleRowA.pb_path "run.sh",
        renderRunScript sampleRowA.name sampleRowA.version sampleRowA.port
          sampleRowA.dev_mode sampleRowA.pb_path),
       (joinPath sampleRowA.pb_path exeName, exeBlob sampleRowA.version),
       (joinPath sampleRowB.pb_path "run.sh",
        renderRunScript sampleRowB.name sampleRowB.version sampleRowB.port
          sampleRowB.dev_mode sampleRowB.pb_path),
       (joinPath sampleRowB.pb_path exeName, exeBlob sampleRowB.version)] }

/-- `sampleSt` after `sampleRowB`'s directory was removed by hand (its
registry row is still present). -/
def sampleStNoDirB : St :=
  { sampleSt with dirs := [instancesDir, sampleRowA.pb_path] }

/-- A supervisor report in which `sampleRowA`'s process is online. -/
def sampleSupOnline : SupReport :=
  .ok [{ name := some "pb_alpha", status := some "online", pid := some 4242,
         cpu := some 3, memory := some 52428800, uptime := some 1000,
         restarts := some 0 }]

/-! # Theorems -/

/-! ## Helper lemmas on characters and sanitization -/

theorem ofNat_toNat_shifted (c : Char) (h1 : 65 ≤ c.toNat) (h2 : c.toNat ≤ 222) :
    (Char.ofNat (c.toNat + 32)).toNat = c.toNat + 32 := by
  have hv : (c.toNat + 32).isValidChar := by
    left
    omega
  rw [Char.ofNat, dif_pos hv]
  simp [Char.ofNatAux, Char.toNat, UInt32.toNat]

theorem pyToLower_eq_underscore (c : Char) : (pyToLower c = '_') ↔ (c = '_') := by
  constructor
  · intro h
    by_cases hc : (65 ≤ c.toNat ∧ c.toNat ≤ 90) ∨
        (192 ≤ c.toNat ∧ c.toNat ≤ 222 ∧ c.toNat ≠ 215)
    · exfalso
      have hb : 65 ≤ c.toNat ∧ c.toNat ≤ 222 := by
        rcases hc with ⟨hx, hy⟩ | ⟨hx, hy, -⟩ <;> exact ⟨by omega, by omega⟩
      have hl : pyToLower c = Char.ofNat (c.toNat + 32) := by
        unfold pyToLower
        exact if_pos hc
      have hEq : (Char.ofNat (c.toNat + 32)).toNat = ('_' : Char).toNat := by
        rw [← hl, h]
      rw [ofNat_toNat_shifted c hb.1 hb.2] at hEq
      have h95 : ('_' : Char).toNat = 95 := by decide
      omega
    · have hl : pyToLower c = c := by
        unfold pyToLower
        exact if_neg hc
      rw [← hl, h]
  · intro h
    subst h
    decide

theorem beq_pyToLower_underscore (c : Char) : (pyToLower c == '_') = (c == '_') := by
  rcases h : c == '_' with _ | _
  · simp only [beq_eq_false_iff_ne] at h ⊢
    intro hc
    exact h ((pyToLower_eq_underscore c).mp hc)
  · simp only [beq_iff_eq] at h ⊢
    exact (pyToLower_eq_underscore c).mpr h

theorem dropWhile_underscore_map_pyToLower (l : List Char) :
    (l.map pyToLower).dropWhile (fun c => c == '_') =
      (l.dropWhile (fun c => c == '_')).map pyToLower := by
  rw [List.dropWhile_map]
  have h : ((fun c => c == '_') ∘ pyToLower) = (fun c : Char => c == '_') := by
    funext c
    exact beq_pyToLower_underscore c
  rw [h]

theorem reverse_map_pyToLower (l : List Char) :
    (l.map pyToLower).reverse = l.reverse.map pyToLower :=
  (List.map_reverse _ _).symm

theorem stripUnderscores_map_pyToLower (l : List Char) :
    stripUnderscores (l.map pyToLower) = (stripUnderscores l).map pyToLower := by
  unfold stripUnderscores
  rw [dropWhile_underscore_map_pyToLower, reverse_map_pyToLower,
    dropWhile_underscore_map_pyToLower, reverse_map_pyToLower]

theorem pyLatin1Word_ascii (c : Char) (h : c.toNat ≤ 127) : pyLatin1Word c = false := by
  unfold pyLatin1Word
  rw [decide_eq_false_iff_not]
  rintro (⟨h1, -, -⟩ | ⟨h1, -⟩) <;> omega

theorem keepChar_eq_specKeep_of_ascii (c : Char) (h : c.toNat ≤ 127) :
    keepChar c = specKeep c := by
  unfold keepChar pyWordChar
  rw [pyLatin1Word_ascii c h]
  simp only [Bool.or_false]
  unfold specKeep Char.isAlphanum Char.isAlpha Char.isUpper Char.isLower Char.isDigit
  rcases c with ⟨v, hv⟩
  simp only [Char.le_def]
  have hA : ('A' : Char).val = 65 := rfl
  have hZ : ('Z' : Char).val = 90 := rfl
  have ha : ('a' : Char).val = 97 := rfl
  have hz : ('z' : Char).val = 122 := rfl
  have h0 : ('0' : Char).val = 48 := rfl
  have h9 : ('9' : Char).val = 57 := rfl
  rw [hA, hZ, ha, hz, h0, h9]

theorem replaceSpecial_eq_spec_of_ascii (l : List Char) (h : ∀ c ∈ l, c.toNat ≤ 127) :
    replaceSpecial l = l.map (fun c => if specKeep c then c else '_') := by
  unfold replaceSpecial
  apply List.map_congr_left
  intro c hc
  rw [keepChar_eq_specKeep_of_ascii c (h c hc)]

theorem sanitizeName_eq_sanitizeSpec_of_ascii (s : String)
    (h : ∀ c ∈ s.data, c.toNat ≤ 127) : sanitizeName s = sanitizeSpec s := by
  unfold sanitizeName sanitizeSpec sanitizeList
  rw [replaceSpecial_eq_spec_of_ascii s.data h, stripUnderscores_map_pyToLower]

/-- C4 (amended). On ASCII input, `sanitize_name` follows the
specification's pipeline: it replaces each character outside
`[A-Za-z0-9_-]` with an underscore, collapses runs of underscores,
trims leading and trailing underscores and lowercases (the source
lowercases before trimming, which commutes); in particular
`sanitize("My App!! 01") = "my_app_01"`. Outside ASCII the code
diverges from that pipeline: the regex `\w` is Unicode-aware, so
non-ASCII word characters are kept rather than replaced —
`sanitize_name("café") = "café"` where the specification's class gives
`"caf"`. Moreover an input whose sanitized form is empty does not
produce a validation error: `sanitize("___")` returns the empty string,
and `create` with that name fails only later, with a
directory-already-exists error on the parent instances directory (the
empty path segment makes the instance directory coincide with
`Config.INSTANCES_DIR`). -/
theorem sanitize_matches_spec_pipeline :
    (∀ s : String, (∀ c ∈ s.data, c.toNat ≤ 127) → sanitizeName s = sanitizeSpec s) ∧
    sanitizeName "My App!! 01" = "my_app_01" ∧
    sanitizeName "café" = "café" ∧
    sanitizeSpec "café" = "caf" ∧
    sanitizeName "___" = "" ∧
    (createInstance initSt ⟨true, none, true, true⟩ "___" "0.22.0" none false none).1
      = .error (.dirExists instancesDir) :=
  ⟨fun s h => sanitizeName_eq_sanitizeSpec_of_ascii s h, by decide, by decide,
   by decide, by decide, rfl⟩

/-- C4 witness: the ASCII pipeline equality evaluated at
`"My App!! 01"`. -/
theorem sanitize_matches_spec_pipeline_witness :
    sanitizeName "My App!! 01" = sanitizeSpec "My App!! 01" :=
  sanitize_matches_spec_pipeline.1 "My App!! 01" (by decide)

/-- C4 counterexample. The claim asserts that sanitize replaces every
character outside `[A-Za-z0-9_-]` with an underscore and that when the
sanitized result would be empty the operation fails with a validation
error instead of returning a name. In the code `sanitize_name` keeps
the non-ASCII word character `é` (`sanitize_name("café") = "café"`,
not `"caf"`), and `sanitize_name("___")` returns the empty string
without raising — the subsequent `create_instance` call does not fail
with any validation error. -/
theorem sanitize_empty_counterexample :
    sanitizeName "___" = "" ∧
    resultIsInvalidName
      (createInstance initSt ⟨true, none, true, true⟩ "___" "0.22.0" none false none)
      = false ∧
    sanitizeName "café" = "café" ∧
    sanitizeName "café" ≠ sanitizeSpec "café" :=
  ⟨by decide, rfl, by decide, by decide⟩

/-! ## Helper lemmas on port allocation -/

theorem maxPort_le (reg : List Row) (r : Row) (h : r ∈ reg) : r.port ≤ maxPort reg := by
  induction reg with
  | nil => cases h
  | cons a rest ih =>
    rcases List.mem_cons.mp h with rfl | hm
    · exact Nat.le_max_left _ _
    · exact le_trans (ih hm) (Nat.le_max_right _ _)

theorem maxPort_attained (reg : List Row) (h : reg ≠ []) :
    ∃ r ∈ reg, r.port = maxPort reg := by
  induction reg with
  | nil => exact absurd rfl h
  | cons a rest ih =>
    rcases List.eq_nil_or_concat rest with hr | _
    · subst hr
      exact ⟨a, List.mem_cons_self a [], by simp [maxPort]⟩
    · by_cases hre : rest = []
      · subst hre
        exact ⟨a, List.mem_cons_self a [], by simp [maxPort]⟩
      · obtain ⟨r, hrm, hrp⟩ := ih hre
        rcases Nat.le_total a.port (maxPort rest) with hle | hge
        · refine ⟨r, List.mem_cons_of_mem a hrm, ?_⟩
          simp only [maxPort, List.foldr_cons] at *
          omega
        · refine ⟨a, List.mem_cons_self a rest, ?_⟩
          simp only [maxPort, List.foldr_cons] at *
          omega

theorem getNextAvailablePort_gt (reg : List Row) (r : Row) (h : r ∈ reg) :
    r.port < getNextAvailablePort reg := by
  have hne : reg ≠ [] := by
    intro he
    subst he
    cases h
  have hmax := maxPort_le reg r h
  unfold getNextAvailablePort
  rw [if_neg (by simpa [List.isEmpty_iff] using hne)]
  have := Nat.le_max_left (maxPort reg + 1) defaultPortStart
  omega

/-- C7. `get_next_available_port` returns one more than the largest
registered port, or the configured floor `DEFAULT_PORT_START` when the
registry is empty or the computed value would fall below the floor; it
never returns a port already registered, and with instances at ports
7200 and 7203 under floor 7200 it returns 7204. -/
theorem next_port_spec :
    (∀ reg : List Row, ∀ r ∈ reg, r.port < getNextAvailablePort reg) ∧
    (∀ reg : List Row, defaultPortStart ≤ getNextAvailablePort reg) ∧
    (∀ reg : List Row, reg ≠ [] →
      (∃ r ∈ reg, r.port = maxPort reg) ∧
      getNextAvailablePort reg = max (maxPort reg + 1) defaultPortStart) ∧
    getNextAvailablePort [] = defaultPortStart ∧
    getNextAvailablePort [sampleRowA, sampleRowB] = 7204 := by
  refine ⟨fun reg r h => getNextAvailablePort_gt reg r h, ?_, ?_, by decide, by decide⟩
  · intro reg
    unfold getNextAvailablePort
    split
    · exact le_refl _
    · exact Nat.le_max_right _ _
  · intro reg hne
    refine ⟨maxPort_attained reg hne, ?_⟩
    unfold getNextAvailablePort
    rw [if_neg (by simpa [List.isEmpty_iff] using hne)]

/-- C7 witness: the properties of `next_port_spec` evaluated on the
two-instance registry at ports 7200 and 7203. -/
theorem next_port_spec_witness :
    sampleRowA.port < getNextAvailablePort [sampleRowA, sampleRowB] ∧
    getNextAvailablePort [sampleRowA, sampleRowB]
      = max (maxPort [sampleRowA, sampleRowB] + 1) defaultPortStart :=
  ⟨next_port_spec.1 [sampleRowA, sampleRowB] sampleRowA (by decide),
   (next_port_spec.2.2.1 [sampleRowA, sampleRowB] (by decide)).2⟩

/-! ## Create: success characterization and the registry invariant -/

theorem pb_append_inj (a b : String) (h : "pb_" ++ a = "pb_" ++ b) : a = b := by
  have hd := congrArg String.data h
  rw [String.data_append, String.data_append] at hd
  exact String.ext (List.append_cancel_left hd)

theorem createTryBody_ok (st : St) (env : CEnv) (sname version : String) (port : Nat)
    (dev : Bool) (domain : Option String) (idir : String) (row : Row) (st' : St)
    (h : createTryBody st env sname version port dev domain idir = (.ok row, st')) :
    row.name = sname ∧ row.port = port ∧ row.pm2_name = "pb_" ++ sname ∧
    st'.registry = st.registry ++ [row] := by
  unfold createTryBody at h
  repeat' split at h
  all_goals rw [Prod.mk.injEq] at h
  all_goals first
    | (obtain ⟨h1, h2⟩ := h
       rw [Except.ok.injEq] at h1
       subst h1
       subst h2
       exact ⟨rfl, rfl, rfl, rfl⟩)
    | exact nomatch h.1

theorem createWithPort_ok (st : St) (env : CEnv) (sname version : String) (port : Nat)
    (dev : Bool) (domain : Option String) (row : Row) (st' : St)
    (h : createWithPort st env sname version port dev domain = (.ok row, st')) :
    row.name = sname ∧ row.port = port ∧ row.pm2_name = "pb_" ++ sname ∧
    st'.registry = st.registry ++ [row] := by
  unfold createWithPort at h
  split at h
  · rw [Prod.mk.injEq] at h
    exact nomatch h.1
  · split at h
    · rw [Prod.mk.injEq] at h
      exact nomatch h.1
    · split at h
      · rename_i row0 st0 heq
        rw [Prod.mk.injEq] at h
        obtain ⟨h1, h2⟩ := h
        rw [Except.ok.injEq] at h1
        subst h1
        subst h2
        exact createTryBody_ok st env sname version port dev domain _ _ _ heq
      · rename_i s0 stf0 heq
        split at h <;>
          (rw [Prod.mk.injEq] at h
           exact nomatch h.1)

theorem createInstance_ok (st : St) (env : CEnv) (name version : String)
    (port? : Option Nat) (dev : Bool) (domain : Option String) (row : Row) (st' : St)
    (h : createInstance st env name version port? dev domain = (.ok row, st')) :
    (∀ r ∈ st.registry, r.name ≠ row.name) ∧
    (∀ r ∈ st.registry, r.port ≠ row.port) ∧
    row.name = sanitizeName name ∧ row.pm2_name = "pb_" ++ row.name ∧
    st'.registry = st.registry ++ [row] := by
  unfold createInstance at h
  split at h
  · rw [Prod.mk.injEq] at h
    exact nomatch h.1
  · rename_i hname
    have hnm : ∀ r ∈ st.registry, r.name ≠ sanitizeName name := by
      intro r hr he
      exact hname (List.any_eq_true.mpr ⟨r, hr, by simp [he]⟩)
    split at h
    · -- port? = none: allocated port
      obtain ⟨hn, hp, hpm, hreg⟩ := createWithPort_ok _ _ _ _ _ _ _ _ _ h
      refine ⟨?_, ?_, hn, ?_, hreg⟩
      · intro r hr
        rw [hn]
        exact hnm r hr
      · intro r hr
        rw [hp]
        exact Nat.ne_of_lt (getNextAvailablePort_gt st.registry r hr)
      · rw [hn]
        exact hpm
    · -- port? = some p: checked port
      rename_i p
      split at h
      · rw [Prod.mk.injEq] at h
        exact nomatch h.1
      · rename_i hport
        have hpt : ∀ r ∈ st.registry, r.port ≠ p := by
          intro r hr he
          exact hport (List.any_eq_true.mpr ⟨r, hr, by simp [he]⟩)
        obtain ⟨hn, hp, hpm, hreg⟩ := createWithPort_ok _ _ _ _ _ _ _ _ _ h
        refine ⟨?_, ?_, hn, ?_, hreg⟩
        · intro r hr
          rw [hn]
          exact hnm r hr
        · intro r hr
          rw [hp]
          exact hpt r hr
        · rw [hn]
          exact hpm

theorem RegInv_snoc (reg : List Row) (row : Row)
    (hinv : RegInv reg)
    (hname : ∀ r ∈ reg, r.name ≠ row.name)
    (hport : ∀ r ∈ reg, r.port ≠ row.port)
    (hpm2 : row.pm2_name = "pb_" ++ row.name)
    (hsan : ∃ raw, row.name = sanitizeName raw) :
    RegInv (reg ++ [row]) := by
  obtain ⟨hpair, hall⟩ := hinv
  constructor
  · rw [List.pairwise_append]
    refine ⟨hpair, List.pairwise_singleton _ _, ?_⟩
    intro a ha b hb
    rw [List.mem_singleton] at hb
    subst hb
    refine ⟨hname a ha, hport a ha, ?_⟩
    intro hpm
    have ha2 := (hall a ha).1
    rw [ha2, hpm2] at hpm
    exact hname a ha (pb_append_inj _ _ hpm)
  · intro r hr
    rcases List.mem_append.mp hr with h1 | h2
    · exact hall r h1
    · rw [List.mem_singleton] at h2
      subst h2
      exact ⟨hpm2, hsan⟩

/-! ## Create: failure rollback -/

theorem underPath_self (p : String) : underPath p p = true := by
  simp [underPath]

theorem underPath_joinPath (p c : String) (hc : c ≠ "") :
    underPath p (joinPath p c) = true := by
  unfold underPath joinPath
  rw [if_neg hc]
  simp only [Bool.or_eq_true]
  right
  rw [List.isPrefixOf_iff_prefix, String.data_append]
  exact List.prefix_append _ _

theorem mem_addDir_self (dirs : List String) (d : String) : d ∈ addDir dirs d := by
  unfold addDir
  split
  · assumption
  · exact List.mem_append.mpr (Or.inr (List.mem_singleton.mpr rfl))

theorem mem_addDir_of_mem (dirs : List String) (d x : String) (h : x ∈ dirs) :
    x ∈ addDir dirs d := by
  unfold addDir
  split
  · exact h
  · exact List.mem_append.mpr (Or.inl h)

theorem mem_addDirs_of_mem (l : List String) (dirs : List String) (x : String)
    (h : x ∈ dirs) : x ∈ addDirs dirs l := by
  induction l generalizing dirs with
  | nil => exact h
  | cons d rest ih => exact ih _ (mem_addDir_of_mem dirs d x h)

theorem mem_addDirs_head (dirs : List String) (d : String) (rest : List String) :
    d ∈ addDirs dirs (d :: rest) :=
  mem_addDirs_of_mem rest _ d (mem_addDir_self dirs d)

theorem rmtreeDirs_addDir (dirs : List String) (d idir : String)
    (hd : underPath idir d = true) :
    rmtreeDirs (addDir dirs d) idir = rmtreeDirs dirs idir := by
  unfold addDir rmtreeDirs
  split
  · rfl
  · rw [List.filter_append]
    simp [hd]

theorem rmtreeDirs_addDirs (l : List String) (dirs : List String) (idir : String)
    (hl : ∀ d ∈ l, underPath idir d = true) :
    rmtreeDirs (addDirs dirs l) idir = rmtreeDirs dirs idir := by
  induction l generalizing dirs with
  | nil => rfl
  | cons d rest ih =>
    show rmtreeDirs (addDirs (addDir dirs d) rest) idir = _
    rw [ih (addDir dirs d) (fun x hx => hl x (List.mem_cons_of_mem _ hx)),
      rmtreeDirs_addDir dirs d idir (hl d (List.mem_cons_self _ _))]

theorem rmtreeDirs_id (dirs : List String) (idir : String)
    (h : ∀ d ∈ dirs, underPath idir d = false) :
    rmtreeDirs dirs idir = dirs := by
  apply List.filter_eq_self.mpr
  intro d hd
  rw [h d hd]
  rfl

theorem rmtreeFiles_id (files : List (String × String)) (idir : String)
    (h : ∀ f ∈ files, underPath idir f.1 = false) :
    rmtreeFiles files idir = files := by
  apply List.filter_eq_self.mpr
  intro f hf
  rw [h f hf]
  rfl

theorem filter_not_under_filter_ne (files : List (String × String)) (p idir : String)
    (hp : underPath idir p = true) :
    (files.filter (fun f => !(f.1 == p))).filter (fun f => !(underPath idir f.1))
      = files.filter (fun f => !(underPath idir f.1)) := by
  induction files with
  | nil => rfl
  | cons a rest ih =>
    by_cases hap : a.1 = p
    · simp [List.filter_cons, hap, hp, ih]
    · by_cases hu : underPath idir a.1 = true <;>
        simp [List.filter_cons, hap, hu, ih]

theorem rmtreeFiles_fput (files : List (String × String)) (p v idir : String)
    (hp : underPath idir p = true) :
    rmtreeFiles (fput files p v) idir = rmtreeFiles files idir := by
  unfold rmtreeFiles fput
  rw [List.filter_cons, if_neg (by simp [hp])]
  exact filter_not_under_filter_ne files p idir hp

theorem createTryBody_error_state (st : St) (env : CEnv) (sname version : String)
    (port : Nat) (dev : Bool) (domain : Option String) (idir : String) (s : CStep)
    (stf : St)
    (h : createTryBody st env sname version port dev domain idir = (.error s, stf)) :
    stf.registry = st.registry ∧
    rmtreeDirs stf.dirs idir = rmtreeDirs st.dirs idir ∧
    rmtreeFiles stf.files idir = rmtreeFiles st.files idir ∧
    (stf = st ∨ idir ∈ stf.dirs) := by
  have hnew : ∀ d ∈ [idir, joinPath idir "pb_hooks", joinPath idir "pb_migrations",
      joinPath idir "pb_data", joinPath idir "pb_public"], underPath idir d = true := by
    intro d hd
    simp only [List.mem_cons, List.not_mem_nil, or_false] at hd
    rcases hd with h1 | h1 | h1 | h1 | h1 <;> rw [h1]
    · exact underPath_self idir
    · exact underPath_joinPath idir _ (by decide)
    · exact underPath_joinPath idir _ (by decide)
    · exact underPath_joinPath idir _ (by decide)
    · exact underPath_joinPath idir _ (by decide)
  have hrunsh : underPath idir (joinPath idir "run.sh") = true :=
    underPath_joinPath idir _ (by decide)
  have hexeu : underPath idir (joinPath idir exeName) = true :=
    underPath_joinPath idir _ (by decide)
  unfold createTryBody at h
  repeat' split at h
  all_goals rw [Prod.mk.injEq] at h
  -- the seven cases in order: failure injected at mkdirs, at writeScript,
  -- at chmodScript, at copyExe, at chmodExe, at commit, and success
  · obtain ⟨-, h2⟩ := h
    subst h2
    exact ⟨rfl, rfl, rfl, Or.inl rfl⟩
  · obtain ⟨-, h2⟩ := h
    subst h2
    exact ⟨rfl, rmtreeDirs_addDirs _ _ _ hnew, rfl, Or.inr (mem_addDirs_head _ _ _)⟩
  · obtain ⟨-, h2⟩ := h
    subst h2
    exact ⟨rfl, rmtreeDirs_addDirs _ _ _ hnew, rmtreeFiles_fput _ _ _ _ hrunsh,
      Or.inr (mem_addDirs_head _ _ _)⟩
  · obtain ⟨-, h2⟩ := h
    subst h2
    exact ⟨rfl, rmtreeDirs_addDirs _ _ _ hnew, rmtreeFiles_fput _ _ _ _ hrunsh,
      Or.inr (mem_addDirs_head _ _ _)⟩
  · obtain ⟨-, h2⟩ := h
    subst h2
    refine ⟨rfl, rmtreeDirs_addDirs _ _ _ hnew, ?_, Or.inr (mem_addDirs_head _ _ _)⟩
    rw [rmtreeFiles_fput _ _ _ _ hexeu]
    exact rmtreeFiles_fput _ _ _ _ hrunsh
  · obtain ⟨-, h2⟩ := h
    subst h2
    refine ⟨rfl, rmtreeDirs_addDirs _ _ _ hnew, ?_, Or.inr (mem_addDirs_head _ _ _)⟩
    rw [rmtreeFiles_fput _ _ _ _ hexeu]
    exact rmtreeFiles_fput _ _ _ _ hrunsh
  · exact nomatch h.1

theorem createWithPort_error_state (st : St) (env : CEnv) (sname version : String)
    (port : Nat) (dev : Bool) (domain : Option String) (e : Err) (st' : St)
    (h : createWithPort st env sname version port dev domain = (.error e, st'))
    (hD : ∀ d ∈ st.dirs, underPath (joinPath instancesDir sname) d = false)
    (hF : ∀ f ∈ st.files, underPath (joinPath instancesDir sname) f.1 = false) :
    st' = st := by
  unfold createWithPort at h
  split at h
  · rw [Prod.mk.injEq] at h
    exact h.2.symm
  · split at h
    · rw [Prod.mk.injEq] at h
      exact h.2.symm
    · split at h
      · rename_i row0 st0 heq
        rw [Prod.mk.injEq] at h
        exact nomatch h.1
      · rename_i s0 stf0 heq
        obtain ⟨hreg, hdirs, hfiles, hor⟩ :=
          createTryBody_error_state _ _ _ _ _ _ _ _ _ _ heq
        split at h
        · rw [Prod.mk.injEq] at h
          obtain ⟨-, h2⟩ := h
          subst h2
          have hrec : ({ registry := stf0.registry,
                         dirs := rmtreeDirs stf0.dirs (joinPath instancesDir sname),
                         files := rmtreeFiles stf0.files (joinPath instancesDir sname) } : St)
              = { registry := st.registry, dirs := st.dirs, files := st.files } := by
            rw [hreg, hdirs, hfiles, rmtreeDirs_id st.dirs _ hD,
              rmtreeFiles_id st.files _ hF]
          rw [hrec]
        · rename_i hnotin
          rw [Prod.mk.injEq] at h
          obtain ⟨-, h2⟩ := h
          subst h2
          rcases hor with hst | hmem
          · exact hst
          · exact absurd hmem hnotin

theorem createInstance_error_state (st : St) (env : CEnv) (name version : String)
    (port? : Option Nat) (dev : Bool) (domain : Option String) (e : Err) (st' : St)
    (h : createInstance st env name version port? dev domain = (.error e, st'))
    (hD : ∀ d ∈ st.dirs, underPath (joinPath instancesDir (sanitizeName name)) d = false)
    (hF : ∀ f ∈ st.files, underPath (joinPath instancesDir (sanitizeName name)) f.1 = false) :
    st' = st := by
  unfold createInstance at h
  split at h
  · rw [Prod.mk.injEq] at h
    exact h.2.symm
  · split at h
    · exact createWithPort_error_state _ _ _ _ _ _ _ _ _ h hD hF
    · split at h
      · rw [Prod.mk.injEq] at h
        exact h.2.symm
      · exact createWithPort_error_state _ _ _ _ _ _ _ _ _ h hD hF

theorem createWithPort_error_registry (st : St) (env : CEnv) (sname version : String)
    (port : Nat) (dev : Bool) (domain : Option String) (e : Err) (st' : St)
    (h : createWithPort st env sname version port dev domain = (.error e, st')) :
    st'.registry = st.registry := by
  unfold createWithPort at h
  split at h
  · rw [Prod.mk.injEq] at h
    rw [← h.2]
  · split at h
    · rw [Prod.mk.injEq] at h
      rw [← h.2]
    · split at h
      · rename_i row0 st0 heq
        rw [Prod.mk.injEq] at h
        exact nomatch h.1
      · rename_i s0 stf0 heq
        have hreg := (createTryBody_error_state _ _ _ _ _ _ _ _ _ _ heq).1
        split at h
        · rw [Prod.mk.injEq] at h
          rw [← h.2]
          exact hreg
        · rw [Prod.mk.injEq] at h
          rw [← h.2]
          exact hreg

theorem createInstance_error_registry (st : St) (env : CEnv) (name version : String)
    (port? : Option Nat) (dev : Bool) (domain : Option String) (e : Err) (st' : St)
    (h : createInstance st env name version port? dev domain = (.error e, st')) :
    st'.registry = st.registry := by
  unfold createInstance at h
  split at h
  · rw [Prod.mk.injEq] at h
    rw [← h.2]
  · split at h
    · exact createWithPort_error_registry _ _ _ _ _ _ _ _ _ h
    · split at h
      · rw [Prod.mk.injEq] at h
        rw [← h.2]
      · exact createWithPort_error_registry _ _ _ _ _ _ _ _ _ h

theorem createInstance_preserves_RegInv (st : St) (env : CEnv) (name version : String)
    (port? : Option Nat) (dev : Bool) (domain : Option String)
    (hinv : RegInv st.registry) :
    RegInv (createInstance st env name version port? dev domain).2.registry := by
  rcases hres : createInstance st env name version port? dev domain with ⟨res, st'⟩
  cases res with
  | error e =>
    show RegInv st'.registry
    rw [createInstance_error_registry _ _ _ _ _ _ _ _ _ hres]
    exact hinv
  | ok row =>
    obtain ⟨hn, hp, hsan, hpm, hreg⟩ := createInstance_ok _ _ _ _ _ _ _ _ _ hres
    show RegInv st'.registry
    rw [hreg]
    exact RegInv_snoc _ _ hinv hn hp hpm ⟨name, hsan⟩

theorem runCreates_RegInv (calls : List CreateCall) (st : St)
    (hinv : RegInv st.registry) : RegInv (runCreates st calls).registry := by
  induction calls generalizing st with
  | nil => exact hinv
  | cons c rest ih =>
    exact ih _ (createInstance_preserves_RegInv st c.env c.name c.version
      c.port? c.dev c.domain hinv)

/-- C1. Starting from the empty registry, after any sequence of
`create_instance` calls (successful or not, with any environments,
names, versions, requested ports, flags and domains) the registry
satisfies: no two rows share a name, a port, or a pm2 process name, and
every row's process name is exactly `"pb_"` prepended to its (sanitized)
instance name. -/
theorem create_uniqueness_invariant (calls : List CreateCall) :
    RegInv (runCreates initSt calls).registry :=
  runCreates_RegInv calls initSt
    ⟨List.Pairwise.nil, fun r hr => absurd hr (List.not_mem_nil r)⟩

/-- C2. Whenever `create_instance` fails — at the duplicate-name check,
the port check, the artifact download, the directory-exists check, or
any step of the `try` block (directory creation, script write, chmods,
executable copy, registry commit) — the resulting state equals the
input state: the partially created directory tree is removed and the
registry transaction is aborted, so no registry row and no directory
remain for the attempted instance (stated for states whose filesystem
holds nothing under the would-be instance directory, which the
invariant start state and all states reachable by creates satisfy).
Moreover the returned error names the original cause: failing at the
executable-copy step on the initial state yields exactly the
create-failed(copy-executable) error and the untouched initial state. -/
theorem create_failure_full_rollback (st : St) (env : CEnv) (name version : String)
    (port? : Option Nat) (dev : Bool) (domain : Option String) (e : Err) (st' : St)
    (hD : ∀ d ∈ st.dirs, underPath (joinPath instancesDir (sanitizeName name)) d = false)
    (hF : ∀ f ∈ st.files, underPath (joinPath instancesDir (sanitizeName name)) f.1 = false)
    (h : createInstance st env name version port? dev domain = (.error e, st')) :
    st' = st ∧
    createInstance initSt ⟨true, some CStep.copyExe, true, true⟩ "app" "0.22.0"
      none false none = (.error (.createFailed .copyExe), initSt) :=
  ⟨createInstance_error_state _ _ _ _ _ _ _ _ _ h hD hF, rfl⟩

/-- C2 witness: the create call that fails at the executable-copy step
on the initial state leaves the state exactly as it was. -/
theorem create_failure_full_rollback_witness :
    (createInstance initSt ⟨true, some CStep.copyExe, true, true⟩ "app" "0.22.0"
      none false none).2 = initSt :=
  (create_failure_full_rollback initSt ⟨true, some CStep.copyExe, true, true⟩
    "app" "0.22.0" none false none (.createFailed .copyExe)
    (createInstance initSt ⟨true, some CStep.copyExe, true, true⟩ "app" "0.22.0"
      none false none).2
    (by decide) (by decide) rfl).1

/-! ## Status aggregation -/

theorem joinRow_row (statuses : List (Option String × ProcInfo)) (r : Row) :
    (joinRow statuses r).row = r := by
  unfold joinRow
  cases dget statuses (some r.pm2_name) <;> rfl

/-- C8 (amended). `get_instances_with_status` performs exactly one bulk
supervisor status query regardless of the number of instances, and
left-joins the result to the registry rows by `pm2_name`: a row with a
matching supervisor entry carries that entry's status, pid, cpu and
memory; a row with no matching entry is reported as `stopped` with pid
null and cpu and memory 0 (the integer zero — not null, as the claim
states). -/
theorem list_status_single_query_join (rows : List Row) (sup : SupReport) :
    (getInstancesWithStatus rows sup).2 = 1 ∧
    (getInstancesWithStatus rows sup).1.map StatusRow.row = rows ∧
    (∀ r ∈ rows, dget (getAllStatus sup) (some r.pm2_name) = none →
      joinRow (getAllStatus sup) r =
        { row := r, pm2_status := "stopped", pid := none,
          cpu := some 0, memory := some 0 }) ∧
    (∀ r ∈ rows, ∀ info, dget (getAllStatus sup) (some r.pm2_name) = some info →
      joinRow (getAllStatus sup) r =
        { row := r, pm2_status := info.status, pid := info.pid,
          cpu := some info.cpu, memory := some info.memory }) := by
  refine ⟨rfl, ?_, ?_, ?_⟩
  · show (rows.map (joinRow (getAllStatus sup))).map StatusRow.row = rows
    rw [List.map_map]
    have h : (StatusRow.row ∘ joinRow (getAllStatus sup)) = id := by
      funext r
      exact joinRow_row _ r
    rw [h, List.map_id]
  · intro r _ hnone
    unfold joinRow
    rw [hnone]
  · intro r _ info hsome
    unfold joinRow
    rw [hsome]

/-- C8 witness: on a one-row registry with an empty supervisor report,
the missing-entry branch of `list_status_single_query_join` yields the
stopped row with pid null and cpu and memory 0. -/
theorem list_status_single_query_join_witness :
    joinRow (getAllStatus (.ok [])) sampleRowA =
      { row := sampleRowA, pm2_status := "stopped", pid := none,
        cpu := some 0, memory := some 0 } :=
  (list_status_single_query_join [sampleRowA] (.ok [])).2.2.1 sampleRowA
    (by decide) (by decide)

/-- C8 counterexample. The claim says an instance with no matching
supervisor entry is reported with null runtime fields pid, cpu and
memory. With one registered instance and an empty supervisor report,
the produced record has `pid` null but `cpu` and `memory` equal to the
integer 0, so the claim's conclusion fails. -/
theorem list_status_null_fields_counterexample :
    (getInstancesWithStatus [sampleRowA] (.ok [])).1 =
      [{ row := sampleRowA, pm2_status := "stopped", pid := none,
         cpu := some 0, memory := some 0 }] ∧
    ¬ (∀ sr ∈ (getInstancesWithStatus [sampleRowA] (.ok [])).1,
        sr.pid = none ∧ sr.cpu = none ∧ sr.memory = none) := by
  constructor
  · rfl
  · intro h
    have := (h { row := sampleRowA, pm2_status := "stopped", pid := none,
                 cpu := some 0, memory := some 0 } (by decide)).2.1
    simp at this

/-! ## Helper lemmas on the file map -/

theorem find?_filter_ne (f : List (String × String)) (p q : String) (h : q ≠ p) :
    (f.filter (fun e => !(e.1 == p))).find? (fun e => e.1 == q)
      = f.find? (fun e => e.1 == q) := by
  induction f with
  | nil => rfl
  | cons a rest ih =>
    by_cases hq : a.1 = q
    · by_cases hp : a.1 = p
      · exact absurd (hq.symm.trans hp) h
      · simp [List.filter_cons, List.find?_cons, hq, hp, h, Ne.symm h]
    · by_cases hp : a.1 = p
      · simp [List.filter_cons, List.find?_cons, hq, hp, ih, h, Ne.symm h]
      · simp [List.filter_cons, List.find?_cons, hq, hp, ih, h, Ne.symm h]

theorem flookup_fput_same (f : List (String × String)) (p v : String) :
    flookup (fput f p v) p = some v := by
  unfold flookup fput
  rw [List.find?_cons_of_pos _ (by simp)]
  rfl

theorem flookup_fput_ne (f : List (String × String)) (p v q : String) (h : q ≠ p) :
    flookup (fput f p v) q = flookup f q := by
  unfold flookup fput
  rw [List.find?_cons_of_neg _ (by simp [Ne.symm h]), find?_filter_ne f p q h]

theorem flookup_fdel_same (f : List (String × String)) (p : String) :
    flookup (fdel f p) p = none := by
  unfold flookup fdel
  rw [List.find?_eq_none.mpr]
  · rfl
  · intro x hx
    have := (List.mem_filter.mp hx).2
    simp at this ⊢
    exact this

theorem flookup_fdel_ne (f : List (String × String)) (p q : String) (h : q ≠ p) :
    flookup (fdel f p) q = flookup f q := by
  unfold flookup fdel
  rw [find?_filter_ne f p q h]

theorem instExe_ne_backupExe (d : String) :
    joinPath d exeName ≠ joinPath d (exeName ++ ".backup") := by
  unfold joinPath exeName
  rw [if_neg (by decide), if_neg (by decide)]
  intro h
  have := congrArg String.length h
  simp only [String.length_append] at this
  have h1 : ("pocketbase" : String).length = 10 := by decide
  have h2 : (".backup" : String).length = 7 := by decide
  omega

theorem backupExe_ne_instExe (d : String) :
    joinPath d (exeName ++ ".backup") ≠ joinPath d exeName :=
  fun h => instExe_ne_backupExe d h.symm

/-! ## Version update -/

/-- C5. `update_version` on an unknown instance id fails with the
not-found error and mutates nothing, and `update_version` on an
instance whose supervisor process is reported online fails with the
must-be-stopped precondition error and mutates nothing (neither the
registry nor any file changes: the returned state is the input state). -/
theorem update_version_preconditions (st : St) (env : UEnv) (instanceId : Nat)
    (newVersion : String) :
    (st.registry.find? (fun r => r.id == instanceId) = none →
      updateVersion st env instanceId newVersion = (.error (.notFound instanceId), st)) ∧
    (∀ inst, st.registry.find? (fun r => r.id == instanceId) = some inst →
      isRunning env.sup inst.pm2_name = true →
      updateVersion st env instanceId newVersion = (.error .mustBeStopped, st)) := by
  constructor
  · intro h
    unfold updateVersion
    rw [h]
  · intro inst h hrun
    unfold updateVersion
    rw [h]
    simp only [hrun, if_pos]

/-- C5 witness: id 99 is unknown in the sample registry; instance 1's
process is online in the sample supervisor report. -/
theorem update_version_preconditions_witness :
    updateVersion sampleSt ⟨sampleSupOnline, true, false, false, false, true, false, false⟩
      99 "0.23.0" = (.error (.notFound 99), sampleSt) ∧
    updateVersion sampleSt ⟨sampleSupOnline, true, false, false, false, true, false, false⟩
      1 "0.23.0" = (.error .mustBeStopped, sampleSt) :=
  ⟨(update_version_preconditions sampleSt
      ⟨sampleSupOnline, true, false, false, false, true, false, false⟩
      99 "0.23.0").1 (by decide),
   (update_version_preconditions sampleSt
      ⟨sampleSupOnline, true, false, false, false, true, false, false⟩
      1 "0.23.0").2 sampleRowA (by decide) (by decide)⟩

theorem find?_map_update (reg : List Row) (instanceId : Nat) (newVersion : String)
    (inst : Row)
    (hfind : reg.find? (fun r => r.id == instanceId) = some inst) :
    (reg.map (fun r =>
        if r.id == instanceId then { r with version := newVersion } else r)).find?
      (fun r => r.id == instanceId) = some { inst with version := newVersion } := by
  induction reg with
  | nil => exact nomatch hfind
  | cons a rest ih =>
    by_cases ha : a.id = instanceId
    · rw [List.find?_cons_of_pos _ (by simp [ha])] at hfind
      rw [Option.some.injEq] at hfind
      subst hfind
      simp only [List.map_cons]
      rw [if_pos (by simp [ha]), List.find?_cons_of_pos _ (by simp [ha])]
    · rw [List.find?_cons_of_neg _ (by simp [ha])] at hfind
      simp only [List.map_cons]
      rw [if_neg (by simp [ha]), List.find?_cons_of_neg _ (by simp [ha])]
      exact ih hfind

/-- C3 (amended). For a version update whose preconditions pass and
whose backup was taken (the artifact download succeeded and the
instance executable existed, so it was copied aside): a failure at any
step up to and including the registry commit (executable copy, chmod,
commit) restores the backed-up bytes over the instance executable path
and leaves the registry — hence the `version` field — unchanged, and a
successful update deletes the backup file. But the `try` block extends
past the commit: a failure at the backup-unlink step or at the
success-`print` step reaches the handler with the commit already
persisted, so the operation reports an error while the registry's
`version` field holds the new version (the rollback is best-effort
only). -/
theorem update_version_rollback (st : St) (env : UEnv) (instanceId : Nat)
    (newVersion : String) (inst : Row) (b0 : String)
    (hfind : st.registry.find? (fun r => r.id == instanceId) = some inst)
    (hrun : isRunning env.sup inst.pm2_name = false)
    (hexe : flookup st.files (joinPath inst.pb_path exeName) = some b0)
    (hdl : env.downloadOk = true) :
    ((env.copyFails || env.osUnix && env.chmodFails || env.commitFails) = true →
      ∀ e st', updateVersion st env instanceId newVersion = (.error e, st') →
        flookup st'.files (joinPath inst.pb_path exeName) = some b0 ∧
        st'.registry = st.registry) ∧
    (∀ st', updateVersion st env instanceId newVersion = (.ok (), st') →
      flookup st'.files (joinPath inst.pb_path (exeName ++ ".backup")) = none) ∧
    (env.copyFails = false → (env.osUnix && env.chmodFails) = false →
      env.commitFails = false → (env.unlinkFails || env.printFails) = true →
      ∀ e st', updateVersion st env instanceId newVersion = (.error e, st') →
        st'.registry.find? (fun r => r.id == instanceId)
          = some { inst with version := newVersion }) := by
  have hne : joinPath inst.pb_path (exeName ++ ".backup") ≠ joinPath inst.pb_path exeName :=
    backupExe_ne_instExe _
  have hne' : joinPath inst.pb_path exeName ≠ joinPath inst.pb_path (exeName ++ ".backup") :=
    instExe_ne_backupExe _
  refine ⟨?_, ?_, ?_⟩
  · intro hpre e st' heq
    by_cases hcopy : env.copyFails
    · simp only [updateVersion, updateExcept, hfind, hrun, hdl, hexe, hcopy,
        flookup_fput_same, Bool.false_eq_true, if_false, Bool.not_true, if_true,
        flookup_fput_ne _ _ _ _ hne'] at heq
      rw [Prod.mk.injEq] at heq
      obtain ⟨-, hst⟩ := heq
      subst hst
      refine ⟨?_, rfl⟩
      rw [flookup_fdel_ne _ _ _ hne', flookup_fput_same]
    · by_cases hch : env.osUnix && env.chmodFails
      · simp only [updateVersion, updateExcept, hfind, hrun, hdl, hexe, hcopy, hch,
          flookup_fput_same, Bool.false_eq_true, if_false, Bool.not_true, if_true,
          flookup_fput_ne _ _ _ _ hne', flookup_fput_ne _ _ _ _ hne] at heq
        rw [Prod.mk.injEq] at heq
        obtain ⟨-, hst⟩ := heq
        subst hst
        refine ⟨?_, rfl⟩
        rw [flookup_fdel_ne _ _ _ hne', flookup_fput_same]
      · by_cases hcm : env.commitFails
        · simp only [updateVersion, updateExcept, hfind, hrun, hdl, hexe, hcopy, hch, hcm,
            flookup_fput_same, Bool.false_eq_true, if_false, Bool.not_true, if_true,
            flookup_fput_ne _ _ _ _ hne', flookup_fput_ne _ _ _ _ hne] at heq
          rw [Prod.mk.injEq] at heq
          obtain ⟨-, hst⟩ := heq
          subst hst
          refine ⟨?_, rfl⟩
          rw [flookup_fdel_ne _ _ _ hne', flookup_fput_same]
        · exfalso
          simp [hcopy, hch, hcm] at hpre
  · intro st' heq
    by_cases hcopy : env.copyFails
    · simp only [updateVersion, updateExcept, hfind, hrun, hdl, hexe, hcopy,
        Bool.false_eq_true, if_false, Bool.not_true, if_true] at heq
      simp at heq
    · by_cases hch : env.osUnix && env.chmodFails
      · simp only [updateVersion, updateExcept, hfind, hrun, hdl, hexe, hcopy, hch,
          Bool.false_eq_true, if_false, Bool.not_true, if_true] at heq
        simp at heq
      · by_cases hcm : env.commitFails
        · simp only [updateVersion, updateExcept, hfind, hrun, hdl, hexe, hcopy, hch, hcm,
            Bool.false_eq_true, if_false, Bool.not_true, if_true] at heq
          simp at heq
        · by_cases hul : env.unlinkFails
          · simp only [updateVersion, updateExcept, hfind, hrun, hdl, hexe, hcopy, hch,
              hcm, hul, flookup_fput_same, flookup_fput_ne _ _ _ _ hne,
              flookup_fput_ne _ _ _ _ hne', Option.isSome_some,
              Bool.false_eq_true, if_false, Bool.not_true, if_true] at heq
            simp at heq
          · by_cases hpr : env.printFails
            · simp only [updateVersion, updateExcept, hfind, hrun, hdl, hexe, hcopy, hch,
                hcm, hul, hpr, flookup_fput_same, flookup_fput_ne _ _ _ _ hne,
                flookup_fdel_same, Option.isSome_some,
                Bool.false_eq_true, if_false, Bool.not_true, if_true] at heq
              simp at heq
            · simp only [updateVersion, hfind, hrun, hdl, hexe, hcopy, hch, hcm, hul, hpr,
                flookup_fput_same, Bool.false_eq_true, if_false, Bool.not_true, if_true,
                flookup_fput_ne _ _ _ _ hne, Option.isSome_some, if_true] at heq
              rw [Prod.mk.injEq] at heq
              obtain ⟨-, hst⟩ := heq
              subst hst
              rw [flookup_fdel_same]
  · intro hcopy hch hcm hpost e st' heq
    by_cases hul : env.unlinkFails
    · simp only [updateVersion, updateExcept, hfind, hrun, hdl, hexe, hcopy, hch, hcm,
        hul, flookup_fput_same, flookup_fput_ne _ _ _ _ hne,
        flookup_fput_ne _ _ _ _ hne', Option.isSome_some,
        Bool.false_eq_true, if_false, Bool.not_true, if_true] at heq
      rw [Prod.mk.injEq] at heq
      obtain ⟨-, hst⟩ := heq
      subst hst
      exact find?_map_update st.registry instanceId newVersion inst hfind
    · have hpr : env.printFails = true := by
        rw [Bool.or_eq_true] at hpost
        rcases hpost with h | h
        · exact absurd h (by simp [hul])
        · exact h
      simp only [updateVersion, updateExcept, hfind, hrun, hdl, hexe, hcopy, hch, hcm,
        hul, hpr, flookup_fput_same, flookup_fput_ne _ _ _ _ hne,
        flookup_fdel_same, Option.isSome_some,
        Bool.false_eq_true, if_false, Bool.not_true, if_true] at heq
      rw [Prod.mk.injEq] at heq
      obtain ⟨-, hst⟩ := heq
      subst hst
      exact find?_map_update st.registry instanceId newVersion inst hfind

/-- C3 counterexample. The claim says every version update that fails
after the backup was taken leaves the registry's `version` field
unchanged. Updating instance 1 of the sample state — download
succeeding, the instance executable present so the backup is taken, and
the success-path `print` raising (a failure inside the `try` block
after `db.session.commit()`) — returns an error while the registry's
`version` field already holds the new version. -/
theorem update_version_postcommit_counterexample :
    flookup sampleSt.files (joinPath sampleRowA.pb_path exeName)
      = some (exeBlob sampleRowA.version) ∧
    (updateVersion sampleSt ⟨.ok [], true, false, false, false, true, false, true⟩
        1 "0.23.0").1 = .error .updateFailed ∧
    ((updateVersion sampleSt ⟨.ok [], true, false, false, false, true, false, true⟩
        1 "0.23.0").2.registry.find? (fun r => r.id == 1)).map Row.version
      = some "0.23.0" :=
  ⟨by decide, rfl, by decide⟩

/-- C3 witness: a failing commit during a version update of instance 1
from the sample state restores the original executable bytes and leaves
the registry unchanged; the same update with no failing step deletes
the backup; and the update whose success-`print` fails leaves the new
version committed. -/
theorem update_version_rollback_witness :
    flookup (updateVersion sampleSt
        ⟨.ok [], true, false, false, true, true, false, false⟩
        1 "0.23.0").2.files (joinPath sampleRowA.pb_path exeName)
      = some (exeBlob sampleRowA.version) ∧
    flookup (updateVersion sampleSt
        ⟨.ok [], true, false, false, false, true, false, false⟩
        1 "0.23.0").2.files (joinPath sampleRowA.pb_path (exeName ++ ".backup"))
      = none ∧
    (updateVersion sampleSt ⟨.ok [], true, false, false, false, true, false, true⟩
        1 "0.23.0").2.registry.find? (fun r => r.id == 1)
      = some { sampleRowA with version := "0.23.0" } :=
  ⟨((update_version_rollback sampleSt
      ⟨.ok [], true, false, false, true, true, false, false⟩ 1 "0.23.0"
      sampleRowA (exeBlob sampleRowA.version)
      (by decide) (by decide) (by decide) (by decide)).1 (by decide) .updateFailed
      (updateVersion sampleSt ⟨.ok [], true, false, false, true, true, false, false⟩
        1 "0.23.0").2 rfl).1,
   (update_version_rollback sampleSt
      ⟨.ok [], true, false, false, false, true, false, false⟩ 1 "0.23.0"
      sampleRowA (exeBlob sampleRowA.version)
      (by decide) (by decide) (by decide) (by decide)).2.1
      (updateVersion sampleSt ⟨.ok [], true, false, false, false, true, false, false⟩
        1 "0.23.0").2 rfl,
   (update_version_rollback sampleSt
      ⟨.ok [], true, false, false, false, true, false, true⟩ 1 "0.23.0"
      sampleRowA (exeBlob sampleRowA.version)
      (by decide) (by decide) (by decide) (by decide)).2.2
      rfl rfl rfl rfl .updateFailed
      (updateVersion sampleSt ⟨.ok [], true, false, false, false, true, false, true⟩
        1 "0.23.0").2 rfl⟩

/-! ## Delete -/

theorem filter_id_ne (reg : List Row) (instanceId : Nat) :
    ∀ r ∈ reg.filter (fun r => !(r.id == instanceId)), r.id ≠ instanceId := by
  intro r hr
  have := (List.mem_filter.mp hr).2
  simpa using this

/-- C6. `delete_instance` on a registered instance always succeeds and
performs, in this strict order: a supervisor stop only when the process
is reported running, then an unconditional supervisor delete of the
process entry, then (when `removeFiles` holds and the directory exists)
recursive removal of the instance directory, and only last the removal
of the registry row; in particular, with `removeFiles` true and the
instance directory already gone, the operation still succeeds, removes
the registry row, and touches no directory. -/
theorem delete_order_and_missing_dir (st : St) (sup : SupReport) (instanceId : Nat)
    (removeFiles : Bool) (inst : Row)
    (hfind : st.registry.find? (fun r => r.id == instanceId) = some inst) :
    (deleteInstance st sup instanceId removeFiles).1 = .ok () ∧
    (deleteInstance st sup instanceId removeFiles).2.2 =
      (if isRunning sup inst.pm2_name then [DEvent.supStop inst.pm2_name] else [])
        ++ [DEvent.supDelete inst.pm2_name]
        ++ (if removeFiles then
              if inst.pb_path ∈ st.dirs then [DEvent.fsRemove inst.pb_path] else []
            else [])
        ++ [DEvent.rowDelete instanceId] ∧
    (deleteInstance st sup instanceId removeFiles).2.1.registry
      = st.registry.filter (fun r => !(r.id == instanceId)) ∧
    (∀ r ∈ (deleteInstance st sup instanceId removeFiles).2.1.registry,
      r.id ≠ instanceId) ∧
    (inst.pb_path ∉ st.dirs →
      (deleteInstance st sup instanceId removeFiles).2.1.dirs = st.dirs) := by
  unfold deleteInstance
  simp only [hfind]
  by_cases hrun : isRunning sup inst.pm2_name <;>
    by_cases hrf : removeFiles <;>
      by_cases hdir : inst.pb_path ∈ st.dirs <;>
        simp [hrun, hrf, hdir, filter_id_ne]

/-- C6 witness: deleting the stopped instance 2 from the sample state
(directory present), and deleting it from the state whose directory was
already removed by hand — both succeed, with the expected event order
and the registry row gone. -/
theorem delete_order_and_missing_dir_witness :
    (deleteInstance sampleSt (.ok []) 2 true).1 = .ok () ∧
    (deleteInstance sampleSt (.ok []) 2 true).2.2 =
      [DEvent.supDelete "pb_beta", DEvent.fsRemove sampleRowB.pb_path,
       DEvent.rowDelete 2] ∧
    (deleteInstance sampleStNoDirB (.ok []) 2 true).1 = .ok () ∧
    (deleteInstance sampleStNoDirB (.ok []) 2 true).2.1.registry = [sampleRowA] ∧
    (deleteInstance sampleStNoDirB (.ok []) 2 true).2.1.dirs = sampleStNoDirB.dirs := by
  have h1 := delete_order_and_missing_dir sampleSt (.ok []) 2 true sampleRowB (by decide)
  have h2 := delete_order_and_missing_dir sampleStNoDirB (.ok []) 2 true sampleRowB (by decide)
  refine ⟨h1.1, ?_, h2.1, ?_, h2.2.2.2.2 (by decide)⟩
  · rw [h1.2.1]
    decide
  · rw [h2.2.2.1]
    decide

/-! ## Mode toggle -/

/-- C9. The dev-mode toggle on a registered instance flips the
`dev_mode` flag in the registry, regenerates the launch script from the
instance's current (updated) state, and issues a supervisor restart if
and only if the process is reported running at the time of the toggle;
on a stopped instance no restart call is issued. -/
theorem toggle_dev_mode_spec (st : St) (sup : SupReport) (instanceId : Nat) (inst : Row)
    (hfind : st.registry.find? (fun r => r.id == instanceId) = some inst) :
    (toggleDevMode st sup instanceId).1 = .ok (!inst.dev_mode) ∧
    (∀ r ∈ (toggleDevMode st sup instanceId).2.1.registry,
      r.id = instanceId → r.dev_mode = !inst.dev_mode) ∧
    flookup (toggleDevMode st sup instanceId).2.1.files (joinPath inst.pb_path "run.sh")
      = some (renderRunScript inst.name inst.version inst.port (!inst.dev_mode)
          inst.pb_path) ∧
    ((toggleDevMode st sup instanceId).2.2 =
      if isRunning sup inst.pm2_name then [TEvent.restart inst.pm2_name] else []) ∧
    (TEvent.restart inst.pm2_name ∈ (toggleDevMode st sup instanceId).2.2
      ↔ isRunning sup inst.pm2_name = true) := by
  unfold toggleDevMode
  simp only [hfind]
  refine ⟨trivial, ?_, ?_, trivial, ?_⟩
  · intro r hr hid
    obtain ⟨r0, hr0m, hr0⟩ := List.mem_map.mp hr
    by_cases h0 : r0.id = instanceId
    · rw [if_pos (by simpa using h0)] at hr0
      rw [← hr0]
    · rw [if_neg (by simpa using h0)] at hr0
      rw [← hr0] at hid
      exact absurd hid h0
  · exact flookup_fput_same _ _ _
  · by_cases hrun : isRunning sup inst.pm2_name <;> simp [hrun]

/-- C9 witness: toggling dev mode on the running instance 1 issues a
restart; toggling it on the stopped instance 2 issues no supervisor
call; both regenerate the launch script with the flipped flag. -/
theorem toggle_dev_mode_spec_witness :
    (toggleDevMode sampleSt sampleSupOnline 1).1 = .ok true ∧
    (toggleDevMode sampleSt sampleSupOnline 1).2.2 = [TEvent.restart "pb_alpha"] ∧
    flookup (toggleDevMode sampleSt sampleSupOnline 1).2.1.files
        (joinPath sampleRowA.pb_path "run.sh")
      = some (renderRunScript sampleRowA.name sampleRowA.version sampleRowA.port
          true sampleRowA.pb_path) ∧
    (toggleDevMode sampleSt sampleSupOnline 2).2.2 = [] := by
  have h1 := toggle_dev_mode_spec sampleSt sampleSupOnline 1 sampleRowA (by decide)
  have h2 := toggle_dev_mode_spec sampleSt sampleSupOnline 2 sampleRowB (by decide)
  refine ⟨h1.1, ?_, h1.2.2.1, ?_⟩
  · rw [h1.2.2.2.1]
    decide
  · rw [h2.2.2.2.1]
    decide

/-- C10. When the bulk `pm2 jlist` query fails (non-zero exit, timeout
or unparseable JSON), `get_all_status` returns an empty map and
`get_instances_with_status` neither raises nor reports the failure:
every registered instance is returned with status `stopped`, pid null,
cpu 0 and memory 0 — exactly the output produced by a successful report
listing no processes, so a supervisor outage is indistinguishable from
all instances being stopped. -/
theorem supervisor_outage_reported_stopped (rows : List Row) :
    getAllStatus (.error ()) = [] ∧
    (getInstancesWithStatus rows (.error ())).1 =
      rows.map (fun r =>
        { row := r, pm2_status := "stopped", pid := none,
          cpu := some 0, memory := some 0 }) ∧
    (getInstancesWithStatus rows (.error ())).1
      = (getInstancesWithStatus rows (.ok [])).1 := by
  refine ⟨rfl, ?_, rfl⟩
  show rows.map (joinRow (getAllStatus (.error ()))) = _
  have h : joinRow (getAllStatus (.error ())) = fun r =>
      ({ row := r, pm2_status := "stopped", pid := none,
         cpu := some 0, memory := some 0 } : StatusRow) := by
    funext r
    rfl
  rw [h]
